import Mathlib

/-!
Shallow embedding of the contract-driven API test generation and execution
engine of this repository (`src/main.py`): requirements model, default-body
synthesis (`get_default_request_body`), schema field processing
(`analyze_endpoint_structure`, property loop), field variation generation
(`generate_field_variations`), the combinatorial test builder
(`generate_combination_test_cases`), the overall generator with the advisory
oracle merge (`generate_test_cases`), the executor (`execute_test_cases`)
and the report aggregator (`generate_test_report`).

Modelling conventions:
* JSON values are the inductive `Value`; request bodies are association
  lists with Python-dict semantics (`lookupKey`, `setKey`).
* Calls to the Faker library and `random.randint` are modelled by an
  explicit environment `Fakes` (one arbitrary value per call site);
  `random.choice(l)` is modelled by `randomChoice l i` where the index
  stream `pick : Nat -> Nat` is an explicit parameter.  `random.choice`
  on an empty list raises `IndexError`; correspondingly `randomChoice`
  returns `none` on an empty list and the exception propagates as the
  `Option`/`Except` failure of the enclosing function.
* The LLM call plus `json.loads` of its output is the advisory oracle,
  modelled as an `Except String (List TestCase)` input.
* Network transport is a function `HttpRequest -> Except String HttpResponse`
  passed to the executor.
* Timestamps (wall-clock) and the float-formatted `success_rate` string are
  presentation-only and not modelled; no claim refers to them.
-/

namespace APITester

/-- Python `str.lower()` (character-wise lowering). -/
def toLowerStr (s : String) : String := String.mk (s.data.map Char.toLower)

/-- `charsStart s pat` : `pat` matches at the start of `s`. -/
def charsStart : List Char → List Char → Bool
  | _, [] => true
  | [], _ :: _ => false
  | c :: cs, p :: ps => c == p && charsStart cs ps

/-- `charsHasSub s pat` : `pat` occurs somewhere inside `s`. -/
def charsHasSub : List Char → List Char → Bool
  | [], pat => pat.isEmpty
  | c :: cs, pat => charsStart (c :: cs) pat || charsHasSub cs pat

/-- Python `pat in s` on strings (substring containment). -/
def strContains (s pat : String) : Bool := charsHasSub s.data pat.data

/-- A JSON-ish runtime value (Python str / int / bool / None). -/
inductive Value
  | vStr (s : String)
  | vInt (n : Int)
  | vBool (b : Bool)
  | vNull
  deriving DecidableEq, Repr

/-- Python `str(value)` for the values that occur in test names / URLs. -/
def valueToString : Value → String
  | .vStr s => s
  | .vInt n => toString n
  | .vBool true => "True"
  | .vBool false => "False"
  | .vNull => "None"

/-- A request body / JSON object: association list with dict semantics. -/
abbrev Body := List (String × Value)

/-- Python dict lookup `m[k]` / `m.get(k)`: first (unique) matching key. -/
def lookupKey {α : Type} : List (String × α) → String → Option α
  | [], _ => none
  | (k, v) :: rest, key => if k = key then some v else lookupKey rest key

/-- Python `k in m` on a dict. -/
def hasKey {α : Type} (m : List (String × α)) (k : String) : Bool :=
  (lookupKey m k).isSome

/-- Python dict assignment `m[k] = v`: overwrite in place, else append. -/
def setKey {α : Type} : List (String × α) → String → α → List (String × α)
  | [], key, v => [(key, v)]
  | (k, w) :: rest, key, v =>
      if k = key then (key, v) :: rest else (k, w) :: setKey rest key v

/-- The declared type of a field: a plain OpenAPI type name, or the list of
subtype names produced by the `anyOf` handling. -/
inductive TypeVal
  | single (t : String)
  | multi (ts : List String)
  deriving DecidableEq, Repr

/-- One field of the requirements model (the dicts stored in
`requirements["required_fields"]` / `requirements["optional_fields"]`).
`Option` fields model key presence in the Python dict. -/
structure FieldInfo where
  type : TypeVal
  description : String
  required : Bool
  format : Option String
  default : Option Value
  exampleVal : Option Value
  deriving DecidableEq, Repr

/-- The requirements model built by `analyze_endpoint_requirements`:
name-to-FieldSpec association lists for the two buckets. -/
structure Requirements where
  required_fields : List (String × FieldInfo)
  optional_fields : List (String × FieldInfo)
  deriving DecidableEq, Repr

/-- The per-required-field value chain of `get_default_request_body`
(src/main.py lines 160-172): example, email format, password-like name,
then by type; `none` when no branch applies (the field is skipped). -/
def defaultValueFor (field : String) (info : FieldInfo) : Option Value :=
  match info.exampleVal with
  | some v => some v
  | none =>
    if info.format = some "email" then some (.vStr "test@example.com")
    else if strContains (toLowerStr field) "password" then some (.vStr "TestPassword123!")
    else if info.type = TypeVal.single "string" then some (.vStr ("Test" ++ field))
    else if info.type = TypeVal.single "boolean" then some (.vBool true)
    else if info.type = TypeVal.single "integer" then some (.vInt 1)
    else none

/-- First loop of `get_default_request_body`: required fields. -/
def addRequired : List (String × FieldInfo) → Body → Body
  | [], acc => acc
  | (f, info) :: rest, acc =>
      match defaultValueFor f info with
      | some v => addRequired rest (setKey acc f v)
      | none => addRequired rest acc

/-- Second loop of `get_default_request_body`: optional fields with a
declared default. -/
def addOptional : List (String × FieldInfo) → Body → Body
  | [], acc => acc
  | (f, info) :: rest, acc =>
      match info.default with
      | some d => addOptional rest (setKey acc f d)
      | none => addOptional rest acc

/-- `get_default_request_body(requirements)` (src/main.py lines 153-179). -/
def get_default_request_body (req : Requirements) : Body :=
  addOptional req.optional_fields (addRequired req.required_fields [])

/-- One `anyOf` alternative of a raw OpenAPI property. -/
structure RawAlt where
  type : Option String
  format : Option String
  deriving DecidableEq, Repr

/-- A raw OpenAPI schema property as read by `analyze_endpoint_structure`.
`Option` models key presence (`some .vNull` is a present JSON null). -/
structure RawField where
  type : Option String
  title : Option String
  format : Option String
  default : Option Value
  anyOf : Option (List RawAlt)
  deriving DecidableEq, Repr

/-- The processed field dict built by the property loop of
`analyze_endpoint_structure` (src/main.py lines 81-113). -/
structure ProcessedField where
  ptype : TypeVal
  description : String
  required : Bool
  format : Option String
  default : Option Value
  exampleVal : Option Value
  deriving DecidableEq, Repr

/-- `field_data['type']` after the `anyOf` handling: the declared type
(defaulting to `string`), or the list of subtype names. -/
def resolvedType (fi : RawField) : TypeVal :=
  match fi.anyOf with
  | none => TypeVal.single (fi.type.getD "string")
  | some alts => TypeVal.multi (alts.filterMap (fun a => a.type))

/-- `field_data['format']` after the `anyOf` handling (last alternative
declaring a format wins). -/
def resolvedFormat (fi : RawField) : Option String :=
  match fi.anyOf with
  | none => fi.format
  | some alts =>
      alts.foldl (fun acc a => match a.format with | some f => some f | none => acc) fi.format

/-- The example-synthesis chain (src/main.py lines 103-111): email name,
password-like name, string type, boolean type; otherwise no example. -/
def synthExample (field_name : String) (fi : RawField) : Option Value :=
  if toLowerStr field_name = "email" then some (.vStr "user@gmail.com")
  else if strContains (toLowerStr field_name) "password" then some (.vStr "StrongPassword123!")
  else if resolvedType fi = TypeVal.single "string" then
    some (.vStr ("Sample " ++ field_name))
  else if resolvedType fi = TypeVal.single "boolean" then
    some (fi.default.getD (.vBool true))
  else none

/-- The body of the property loop of `analyze_endpoint_structure`
(src/main.py lines 81-113) for one property. -/
def processField (field_name : String) (fi : RawField) (required_fields : List String) :
    ProcessedField :=
  { ptype := resolvedType fi
    description := fi.title.getD ""
    required := required_fields.contains field_name
    format := resolvedFormat fi
    default := fi.default
    exampleVal := synthExample field_name fi }

/-- Environment of values produced by the Faker library and
`random.randint` inside `generate_field_variations` (one arbitrary value
per call site; the code places them in fixed list positions). -/
structure Fakes where
  email1 : String
  email2 : String
  email3 : String
  userName : String
  domainName : String
  firstName : String
  lastName : String
  fullName : String
  password1 : String
  phone1 : String
  phone2 : String
  randInt : Int
  deriving DecidableEq, Repr

/-- `generate_field_variations(field_name, field_info)`
(src/main.py lines 357-422).  `field_info` is `none` when the Python dict
is empty (selected field in neither bucket), so the `'type' in field_info`
guard fails and the list stays empty. -/
def generate_field_variations (fk : Fakes) (field_name : String)
    (field_info : Option FieldInfo) : List Value :=
  match field_info with
  | none => []
  | some info =>
    if info.type = TypeVal.single "string" then
      if strContains (toLowerStr field_name) "email" then
        [.vStr fk.email1, .vStr fk.email2, .vStr fk.email3,
         .vStr (fk.userName ++ "@" ++ fk.domainName),
         .vStr "invalid.email", .vStr "test@.com", .vStr "@domain.com",
         .vStr " @domain.com"]
      else if strContains (toLowerStr field_name) "name" then
        [.vStr fk.firstName, .vStr fk.lastName, .vStr fk.fullName,
         .vStr "A", .vStr (String.mk (List.replicate 50 'x')), .vStr "123",
         .vStr "$pecial Ch@racters", .vStr ""]
      else if strContains (toLowerStr field_name) "password" then
        [.vStr fk.password1, .vStr "P@ssw0rd123!", .vStr "Str0ng!P@ss",
         .vStr "weak", .vStr "12345678", .vStr "password", .vStr ""]
      else if strContains (toLowerStr field_name) "phone" then
        [.vStr fk.phone1, .vStr fk.phone2, .vStr "+1234567890",
         .vStr "123", .vStr "abcdefghij", .vStr ""]
      else []
    else if info.type = TypeVal.single "integer" then
      [.vInt fk.randInt, .vInt 0, .vInt (-1), .vInt 999999,
       .vStr "not_a_number", .vStr ""]
    else if info.type = TypeVal.single "boolean" then
      [.vBool true, .vBool false, .vNull, .vStr "true", .vStr "false",
       .vInt 0, .vInt 1]
    else []

/-- The string the executor writes for `actual_status_code`: an HTTP status
code, or the literal `"Error"` marker. -/
inductive StatusVal
  | code (n : Int)
  | errText
  deriving DecidableEq, Repr

/-- The `test_result` dict written by `execute_test_cases`.  `Option`
fields model key presence (the success and error branches write different
key sets); the `timestamp` key is wall-clock and not modelled. -/
structure TestResult where
  passed : Option Bool
  status_code_match : Option Bool
  notes : Option String
  error : Option String
  deriving DecidableEq, Repr

/-- A test case dict.  `Option` fields model key presence: generated cases
carry the first five keys, advisory-oracle cases may omit any of them, and
the executor adds the last three. -/
structure TestCase where
  name : Option String
  method : Option String
  data : Option Body
  expected_status_code : Option Int
  expected_behavior : Option String
  actual_status_code : Option StatusVal
  actual_response : Option Value
  test_result : Option TestResult
  deriving DecidableEq, Repr

/-- One single-field test case (src/main.py lines 431-440): a copy of the
default body with only `field` overridden; expected status is 400 exactly
for the empty string. -/
def mkSingleCase (default_body : Body) (field : String) (v : Value) : TestCase :=
  { name := some ("Test " ++ field ++ " with value: " ++ valueToString v)
    method := some "POST"
    data := some (setKey default_body field v)
    expected_status_code := some (if v = Value.vStr "" then 400 else 200)
    expected_behavior := some ("Testing " ++ field ++ " with specific value")
    actual_status_code := none
    actual_response := none
    test_result := none }

/-- One combination test case (src/main.py lines 447-456) with its already
overridden body. -/
def mkComboCase (fields_combo : List String) (data : Body) : TestCase :=
  { name := some ("Test combination of " ++ String.intercalate ", " fields_combo)
    method := some "POST"
    data := some data
    expected_status_code := some 200
    expected_behavior := some "Testing multiple field combinations"
    actual_status_code := none
    actual_response := none
    test_result := none }

/-- The single-field pass (src/main.py lines 428-440); `none` models the
`KeyError` if a selected field were missing from `field_variations`. -/
def singleFieldCases (default_body : Body) (fv : List (String × List Value)) :
    List String → Option (List TestCase)
  | [] => some []
  | f :: fs =>
    match lookupKey fv f with
    | none => none
    | some vars =>
      match singleFieldCases default_body fv fs with
      | none => none
      | some rest => some (vars.map (mkSingleCase default_body f) ++ rest)

/-- `itertools.combinations` by position: all size-`r` sublists, in the
same order as the Python iterator. -/
def combos {α : Type} : Nat → List α → List (List α)
  | 0, _ => [[]]
  | _ + 1, [] => []
  | r + 1, x :: xs => (combos r xs).map (fun c => x :: c) ++ combos (r + 1) xs

/-- Python `range(a, b)`. -/
def rangeFromTo (a b : Nat) : List Nat := (List.range b).drop a

/-- The field subsets visited by the combination pass:
`for r in range(2, min(4, len(selected_fields) + 1))` over
`combinations(selected_fields, r)` (src/main.py lines 443-444). -/
def comboSubsets {α : Type} (selected : List α) : List (List α) :=
  (rangeFromTo 2 (min 4 (selected.length + 1))).flatMap (fun r => combos r selected)

/-- `random.choice(l)` with explicit random index `i`: some element of a
non-empty list, failure (`IndexError`) on an empty one. -/
def randomChoice {α : Type} (l : List α) (i : Nat) : Option α :=
  l.get? (i % l.length)

/-- The inner loop of one combination case (src/main.py lines 455-456):
override every field of the combo with a random pick from its variation
list; `ctr` counts `random.choice` call sites for the `pick` stream. -/
def overrideFields (pick : Nat → Nat) (fv : List (String × List Value)) :
    List String → Body → Nat → Option (Body × Nat)
  | [], b, ctr => some (b, ctr)
  | f :: fs, b, ctr =>
    match lookupKey fv f with
    | none => none
    | some vars =>
      match randomChoice vars (pick ctr) with
      | none => none
      | some v => overrideFields pick fv fs (setKey b f v) (ctr + 1)

/-- The `for _ in range(3)` repetition for one field combo
(src/main.py lines 446-458). -/
def comboRep (pick : Nat → Nat) (default_body : Body)
    (fv : List (String × List Value)) (combo : List String) :
    Nat → Nat → Option (List TestCase × Nat)
  | 0, ctr => some ([], ctr)
  | n + 1, ctr =>
    match overrideFields pick fv combo default_body ctr with
    | none => none
    | some (body, ctr2) =>
      match comboRep pick default_body fv combo n ctr2 with
      | none => none
      | some (rest, ctr3) => some (mkComboCase combo body :: rest, ctr3)

/-- The combination pass over all visited field subsets
(src/main.py lines 442-458). -/
def comboAll (pick : Nat → Nat) (default_body : Body)
    (fv : List (String × List Value)) :
    List (List String) → Nat → Option (List TestCase × Nat)
  | [], ctr => some ([], ctr)
  | c :: cs, ctr =>
    match comboRep pick default_body fv c 3 ctr with
    | none => none
    | some (cases1, ctr2) =>
      match comboAll pick default_body fv cs ctr2 with
      | none => none
      | some (rest, ctr3) => some (cases1 ++ rest, ctr3)

/-- `generate_combination_test_cases(selected_fields, field_variations)`
(src/main.py lines 424-460): single-field pass then combination pass;
`none` models an uncaught `IndexError`/`KeyError` escaping to the caller's
`except` block. -/
def generate_combination_test_cases (pick : Nat → Nat) (selected : List String)
    (field_variations : List (String × List Value)) (default_body : Body) :
    Option (List TestCase) :=
  match singleFieldCases default_body field_variations selected with
  | none => none
  | some singles =>
    match comboAll pick default_body field_variations (comboSubsets selected) 0 with
    | none => none
    | some (comboCases, _) => some (singles ++ comboCases)

/-- Field-info lookup of `generate_test_cases` (src/main.py lines 503-507):
required bucket first, then optional; `none` is the empty dict fallback. -/
def fieldInfoFor (req : Requirements) (f : String) : Option FieldInfo :=
  match lookupKey req.required_fields f with
  | some i => some i
  | none => lookupKey req.optional_fields f

/-- The `field_variations` dict built in src/main.py lines 501-509. -/
def variationsMap (req : Requirements) (fk : Fakes) (selected : List String) :
    List (String × List Value) :=
  selected.map (fun f => (f, generate_field_variations fk f (fieldInfoFor req f)))

/-- The body-completion loop of src/main.py lines 536-540: start from a
copy of the default body and copy over every selected field present in the
case's declared data. -/
def applyOverrides (dd : Body) : List String → Body → Body
  | [], acc => acc
  | f :: fs, acc =>
    match lookupKey dd f with
    | some v => applyOverrides dd fs (setKey acc f v)
    | none => applyOverrides dd fs acc

/-- The complete request body for one case (src/main.py lines 536-541):
the default body when the case declares no data, else the default body
with the selected-and-declared fields overridden. -/
def normBody (selected : List String) (default_body : Body) : Option Body → Body
  | none => default_body
  | some dd => applyOverrides dd selected default_body

/-- The per-case normalization of src/main.py lines 535-541
(`case['data'] = complete_body`). -/
def normalizeCase (selected : List String) (default_body : Body) (c : TestCase) :
    TestCase :=
  { c with data := some (normBody selected default_body c.data) }

/-- `generate_test_cases(...)` (src/main.py lines 499-547) with the LLM
call + `json.loads` abstracted as the advisory `oracle`.  Any exception in
the `try` block — an `IndexError`/`KeyError` from the combination pass, or
an oracle/parse failure — is caught and the function returns `None`. -/
def generate_test_cases (req : Requirements) (fk : Fakes) (pick : Nat → Nat)
    (oracle : Except String (List TestCase)) (selected : List String)
    (default_body : Body) : Option (List TestCase) :=
  match generate_combination_test_cases pick selected (variationsMap req fk selected)
      default_body with
  | none => none
  | some automated =>
    match oracle with
    | .error _ => none
    | .ok gptCases =>
        some ((automated ++ gptCases).map (normalizeCase selected default_body))

/-- An HTTP request as dispatched by `execute_test_cases`. -/
structure HttpRequest where
  verb : String
  url : String
  jsonBody : Option Body
  params : Option Body
  deriving DecidableEq, Repr

/-- An HTTP response: status code plus the decoded body (`response.json()`
when it parses, else the raw text as a string value). -/
structure HttpResponse where
  status : Int
  body : Value
  deriving DecidableEq, Repr

/-- Missing-dict-key access `case[k]`: a `KeyError` when absent. -/
def keyOr {α : Type} (o : Option α) (k : String) : Except String α :=
  match o with
  | some v => Except.ok v
  | none => Except.error ("KeyError: " ++ k)

/-- The method dispatch of `execute_test_cases` (src/main.py lines 561-582):
get/post/put/delete, `id`-specific URL when the payload carries `id`,
`ValueError` for any other method. -/
def buildRequest (endpoint : String) (method : String) (data : Body) :
    Except String HttpRequest :=
  let m := toLowerStr method
  if m = "get" then
    match lookupKey data "id" with
    | some idv =>
        Except.ok { verb := "get", url := endpoint ++ "/" ++ valueToString idv,
                    jsonBody := none, params := none }
    | none =>
        Except.ok { verb := "get", url := endpoint, jsonBody := none, params := some data }
  else if m = "post" then
    Except.ok { verb := "post", url := endpoint, jsonBody := some data, params := none }
  else if m = "put" then
    match lookupKey data "id" with
    | some idv =>
        Except.ok { verb := "put", url := endpoint ++ "/" ++ valueToString idv,
                    jsonBody := some data, params := none }
    | none =>
        Except.ok { verb := "put", url := endpoint, jsonBody := some data, params := none }
  else if m = "delete" then
    match lookupKey data "id" with
    | some idv =>
        Except.ok { verb := "delete", url := endpoint ++ "/" ++ valueToString idv,
                    jsonBody := none, params := none }
    | none =>
        Except.ok { verb := "delete", url := endpoint, jsonBody := none, params := none }
  else Except.error ("Unsupported method: " ++ m)

/-- The `try` block of one iteration of `execute_test_cases`
(src/main.py lines 556-597): fetch the keys, dispatch the request through
the transport, and compute the pass verdict.  Result: actual status, actual
response body, pass flag, expected status (for the notes line). -/
def caseAttempt (transport : HttpRequest → Except String HttpResponse)
    (endpoint : String) (c : TestCase) : Except String (Int × Value × Bool × Int) := do
  let method ← keyOr c.method "method"
  let data ← keyOr c.data "data"
  let req ← buildRequest endpoint method data
  let resp ← transport req
  let expected ← keyOr c.expected_status_code "expected_status_code"
  Except.ok (resp.status, resp.body, decide (expected = resp.status), expected)

/-- One iteration of the loop of `execute_test_cases`: the success branch
records status/response/`test_result`, the `except` branch marks the case
with `actual_status_code = "Error"`, `passed = False` and the message. -/
def execute_case (transport : HttpRequest → Except String HttpResponse)
    (endpoint : String) (c : TestCase) : TestCase :=
  match caseAttempt transport endpoint c with
  | Except.ok (st, body, pass, expected) =>
      { c with
        actual_status_code := some (StatusVal.code st)
        actual_response := some body
        test_result := some
          { passed := some pass
            status_code_match := some pass
            notes := some ("Expected " ++ toString expected ++ ", got " ++ toString st)
            error := none } }
  | Except.error e =>
      { c with
        actual_status_code := some StatusVal.errText
        actual_response := some (Value.vStr e)
        test_result := some
          { passed := some false
            status_code_match := none
            notes := none
            error := some e } }

/-- `execute_test_cases(endpoint, test_cases)` (src/main.py lines 549-611):
every case is attempted and appended to the results, failures included. -/
def execute_test_cases (transport : HttpRequest → Except String HttpResponse)
    (endpoint : String) (cases : List TestCase) : List TestCase :=
  cases.map (execute_case transport endpoint)

/-- One entry of `failed_tests_summary` (src/main.py lines 630-638). -/
structure FailEntry where
  name : String
  expected_status : Int
  actual_status : StatusVal
  error : String
  deriving DecidableEq, Repr

/-- The test report (src/main.py lines 621-639); `success_rate` (a
float-formatted string) and `timestamp` are presentation-only and not
modelled. -/
structure Report where
  total_tests : Nat
  passed_tests : Nat
  failed_tests : Nat
  test_results : List TestCase
  failed_tests_summary : List FailEntry
  deriving DecidableEq, Repr

/-- `test.get("test_result", {}).get("passed", False)`
(src/main.py lines 618 and 637). -/
def casePassed (c : TestCase) : Bool :=
  match c.test_result with
  | some r => r.passed.getD false
  | none => false

/-- One `failed_tests_summary` entry (src/main.py lines 631-636); the three
direct key accesses raise `KeyError` when absent. -/
def failEntry (c : TestCase) : Except String FailEntry := do
  let n ← keyOr c.name "name"
  let e ← keyOr c.expected_status_code "expected_status_code"
  let a ← keyOr c.actual_status_code "actual_status_code"
  Except.ok
    { name := n, expected_status := e, actual_status := a,
      error :=
        match c.test_result with
        | some r => r.error.getD "No error message"
        | none => "No error message" }

/-- Sequential evaluation of a list comprehension whose body may raise. -/
def mapExcept {α β : Type} (f : α → Except String β) :
    List α → Except String (List β)
  | [] => Except.ok []
  | x :: xs =>
    match f x with
    | Except.error e => Except.error e
    | Except.ok y =>
      match mapExcept f xs with
      | Except.error e => Except.error e
      | Except.ok ys => Except.ok (y :: ys)

/-- `generate_test_report(results)` (src/main.py lines 613-640). -/
def generate_test_report (results : List TestCase) : Except String Report :=
  match mapExcept failEntry (results.filter (fun c => ! casePassed c)) with
  | Except.error e => Except.error e
  | Except.ok entries =>
    Except.ok
      { total_tests := results.length
        passed_tests := (results.filter casePassed).length
        failed_tests := results.length - (results.filter casePassed).length
        test_results := results
        failed_tests_summary := entries }

/-! ### Concrete fixtures and spec-side helper definitions -/

/-- Fixed concrete Faker environment for witnesses and counterexamples. -/
def fkA : Fakes :=
  { email1 := "e1@x.com", email2 := "e2@x.com", email3 := "e3@x.com",
    userName := "u", domainName := "d.com", firstName := "Fn", lastName := "Ln",
    fullName := "Fn Ln", password1 := "Xx1!aaaaaaaa", phone1 := "555-0100",
    phone2 := "15550100", randInt := 42 }

/-- Fixed concrete random-index stream for witnesses and counterexamples. -/
def pickA : Nat → Nat := fun _ => 0

/-- A required string field without explicit example/format/default. -/
def infoString : FieldInfo :=
  { type := .single "string", description := "", required := true,
    format := none, default := none, exampleVal := none }

/-- A required integer field without explicit example/format/default. -/
def infoInteger : FieldInfo :=
  { type := .single "integer", description := "", required := true,
    format := none, default := none, exampleVal := none }

/-- A required object-typed field without explicit example/format/default. -/
def infoObject : FieldInfo :=
  { type := .single "object", description := "", required := true,
    format := none, default := none, exampleVal := none }

/-- Requirements with a single required object-typed field `addr`. -/
def reqObjOnly : Requirements :=
  { required_fields := [("addr", infoObject)], optional_fields := [] }

/-- Requirements with a single required untyped-name string field. -/
def reqNickOnly : Requirements :=
  { required_fields := [("nick", infoString)], optional_fields := [] }

/-- Requirements with a single required integer field `age`. -/
def reqAgeOnly : Requirements :=
  { required_fields := [("age", infoInteger)], optional_fields := [] }

/-- A raw integer-typed schema property. -/
def rawInteger : RawField :=
  { type := some "integer", title := none, format := none, default := none, anyOf := none }

/-- A raw string-typed schema property. -/
def rawString : RawField :=
  { type := some "string", title := none, format := none, default := none, anyOf := none }

/-- A concrete variation table for the C2 witness. -/
def fvNick : List (String × List Value) := [("nick", [Value.vStr "", Value.vStr "A"])]

/-- The single-field cases produced from `fvNick`. -/
def casesNick : List TestCase :=
  [mkSingleCase [] "nick" (Value.vStr ""), mkSingleCase [] "nick" (Value.vStr "A")]

/-- Decidable hypothesis form: the field's variation list exists and is
non-empty. -/
def hasNonemptyVars (fv : List (String × List Value)) (f : String) : Bool :=
  match lookupKey fv f with
  | some (_ :: _) => true
  | _ => false

/-- A concrete two-field variation table for the C3 witness. -/
def fvPair : List (String × List Value) :=
  [("a", [Value.vInt 1]), ("b", [Value.vInt 2])]

/-- Lookup into a case's declared data (`none` when the case carries no
`data` key at all). -/
def dataLookup (d : Option Body) (k : String) : Option Value :=
  match d with
  | some dd => lookupKey dd k
  | none => none

/-- An advisory-oracle scenario carrying no data of its own. -/
def rawOracleCase : TestCase :=
  { name := some "extra scenario", method := some "POST", data := none,
    expected_status_code := some 200, expected_behavior := none,
    actual_status_code := none, actual_response := none, test_result := none }

/-- The merged form of `rawOracleCase` against default body `{a: 1}`. -/
def mergedOracleCase : TestCase :=
  { rawOracleCase with data := some [("a", Value.vInt 1)] }

/-- Requirements with a single required string field `a` (which yields no
variations, so the automated pass is empty and only the merge remains). -/
def reqAOnly : Requirements :=
  { required_fields := [("a", infoString)], optional_fields := [] }

/-- An advisory scenario declaring the selected field `a` and the
unselected field `b`. -/
def rawDeclaresB : TestCase :=
  { name := some "gpt scenario", method := some "POST",
    data := some [("a", Value.vInt 5), ("b", Value.vInt 2)],
    expected_status_code := some 200, expected_behavior := none,
    actual_status_code := none, actual_response := none, test_result := none }

/-- The merged form of `rawDeclaresB`: `b` is dropped. -/
def mergedDeclaresB : TestCase :=
  { rawDeclaresB with data := some [("a", Value.vInt 5)] }

/-- Requirements with a plain string field `address` (no recognized name
pattern, hence an empty variation list) and an integer field `age`. -/
def reqAddrAge : Requirements :=
  { required_fields := [("address", infoString), ("age", infoInteger)],
    optional_fields := [] }

/-- A transport that always fails with a connection error. -/
def transportFail : HttpRequest → Except String HttpResponse :=
  fun _ => Except.error "connection refused"

/-- A well-formed POST test case for the executor witness. -/
def caseForExec : TestCase :=
  { name := some "t", method := some "POST", data := some [],
    expected_status_code := some 200, expected_behavior := none,
    actual_status_code := none, actual_response := none, test_result := none }

/-- An executed case whose `test_result` mapping is missing entirely. -/
def noResultCase : TestCase :=
  { name := some "t", method := some "POST", data := some [],
    expected_status_code := some 200, expected_behavior := none,
    actual_status_code := some (StatusVal.code 500), actual_response := none,
    test_result := none }

/-- The report produced for `[noResultCase]`. -/
def noResultReport : Report :=
  { total_tests := 1, passed_tests := 0, failed_tests := 1,
    test_results := [noResultCase],
    failed_tests_summary := [{ name := "t", expected_status := 200,
                               actual_status := StatusVal.code 500,
                               error := "No error message" }] }

/-! ### Association-list (dict) lemmas -/

theorem lookupKey_setKey_self {α : Type} (m : List (String × α)) (k : String) (v : α) :
    lookupKey (setKey m k v) k = some v := by
  induction m with
  | nil => simp [setKey, lookupKey]
  | cons p rest ih =>
    obtain ⟨k', w⟩ := p
    by_cases h : k' = k
    · simp [setKey, h, lookupKey]
    · simp [setKey, h, lookupKey, ih]

theorem lookupKey_setKey_ne {α : Type} (m : List (String × α)) (k k' : String) (v : α)
    (h : k' ≠ k) : lookupKey (setKey m k v) k' = lookupKey m k' := by
  induction m with
  | nil => simp [setKey, lookupKey, Ne.symm h]
  | cons p rest ih =>
    obtain ⟨k'', w⟩ := p
    by_cases h1 : k'' = k
    · subst h1
      simp [setKey, lookupKey, Ne.symm h]
    · by_cases h2 : k'' = k'
      · subst h2
        simp [setKey, h, h1, lookupKey]
      · simp [setKey, h1, lookupKey, h2, ih]

theorem hasKey_setKey {α : Type} (m : List (String × α)) (k k' : String) (v : α)
    (h : hasKey m k' = true) : hasKey (setKey m k v) k' = true := by
  by_cases hk : k' = k
  · subst hk
    simp [hasKey, lookupKey_setKey_self]
  · simpa [hasKey, lookupKey_setKey_ne m k k' v hk] using h

/-! ### Claim C1: default-body synthesis and required fields -/

theorem addRequired_pres (l : List (String × FieldInfo)) (acc : Body) (k : String)
    (h : hasKey acc k = true) : hasKey (addRequired l acc) k = true := by
  induction l generalizing acc with
  | nil => simpa [addRequired] using h
  | cons p rest ih =>
    obtain ⟨f, info⟩ := p
    simp only [addRequired]
    cases hd : defaultValueFor f info with
    | none => exact ih acc h
    | some v => exact ih _ (hasKey_setKey acc f k v h)

theorem addOptional_pres (l : List (String × FieldInfo)) (acc : Body) (k : String)
    (h : hasKey acc k = true) : hasKey (addOptional l acc) k = true := by
  induction l generalizing acc with
  | nil => simpa [addOptional] using h
  | cons p rest ih =>
    obtain ⟨f, info⟩ := p
    simp only [addOptional]
    cases hd : info.default with
    | none => exact ih acc h
    | some v => exact ih _ (hasKey_setKey acc f k v h)

theorem addRequired_adds (l : List (String × FieldInfo)) (acc : Body) (f : String)
    (info : FieldInfo) (hmem : (f, info) ∈ l)
    (hder : (defaultValueFor f info).isSome = true) :
    hasKey (addRequired l acc) f = true := by
  induction l generalizing acc with
  | nil => cases hmem
  | cons p rest ih =>
    obtain ⟨g, gi⟩ := p
    rcases List.mem_cons.mp hmem with heq | htl
    · obtain ⟨hf, hi⟩ := Prod.mk.injEq f info g gi ▸ heq
      subst hf
      subst hi
      simp only [addRequired]
      cases hd : defaultValueFor f info with
      | none => rw [hd] at hder; cases hder
      | some v =>
          exact addRequired_pres rest _ f
            (by simp [hasKey, lookupKey_setKey_self])
    · simp only [addRequired]
      cases hd : defaultValueFor g gi with
      | none => exact ih acc htl
      | some v => exact ih _ htl

/-- Claim C1 counterexample: for the requirements model whose only required
field `addr` has type `object` and no example, `get_default_request_body`
returns a body that does not contain `addr`, and it raises nothing — the
required field is silently omitted, contradicting "returns a body
containing every required field name or fails". -/
theorem claim1_counterexample :
    hasKey (get_default_request_body reqObjOnly) "addr" = false := by decide

/-- Claim C1 (amended): default-body synthesis never fails; it returns a
body containing every required field with a derivable value (an explicit
example, email format, a password-like name, or declared type
string/boolean/integer).  A required field with no derivable value is
silently omitted — there is no `IncompleteDefaultBodyError` in the code. -/
theorem claim1_amended (req : Requirements) (f : String) (info : FieldInfo)
    (hmem : (f, info) ∈ req.required_fields)
    (hder : (defaultValueFor f info).isSome = true) :
    hasKey (get_default_request_body req) f = true :=
  addOptional_pres _ _ _ (addRequired_adds _ _ _ _ hmem hder)

/-- Witness for C1 (amended) at a concrete requirements model. -/
theorem claim1_witness : hasKey (get_default_request_body reqNickOnly) "nick" = true :=
  claim1_amended reqNickOnly "nick" infoString (by decide) (by decide)

/-! ### Claim C5: oracle failure aborts generation -/

/-- Claim C5 (amended): when the advisory oracle call fails or its output
cannot be parsed as JSON, `generate_test_cases` catches the exception and
returns `None` — the automatically generated cases are discarded and the
run aborts with no test cases, instead of degrading. -/
theorem claim5_amended (req : Requirements) (fk : Fakes) (pick : Nat → Nat)
    (e : String) (selected : List String) (default_body : Body) :
    generate_test_cases req fk pick (Except.error e) selected default_body = none := by
  unfold generate_test_cases
  cases generate_combination_test_cases pick selected (variationsMap req fk selected)
      default_body <;> rfl

/-- Claim C5 counterexample: with one selected integer field the automated
pass alone yields 6 test cases, yet when the oracle output is unparseable
`generate_test_cases` returns `None` — the run aborts with no test cases
instead of returning the automatically generated ones. -/
theorem claim5_counterexample :
    generate_test_cases reqAgeOnly fkA pickA (Except.error "oracle output was not JSON")
      ["age"] [("age", Value.vInt 1)] = none ∧
    Option.map List.length
      (generate_combination_test_cases pickA ["age"] (variationsMap reqAgeOnly fkA ["age"])
        [("age", Value.vInt 1)]) = some 6 :=
  ⟨rfl, rfl⟩

/-! ### Claim C7: example synthesis after schema extraction -/

/-- Claim C7 counterexample: schema extraction leaves the example absent
for an integer-typed field (`age`), contradicting "every FieldSpec ... has
an example value that is present and never null, for every field type". -/
theorem claim7_counterexample :
    (processField "age" rawInteger ["age"]).exampleVal = none := by decide

/-- Claim C7 (amended): after schema extraction the example is present for
every field named `email`, every field whose name contains `password`, and
every field whose resolved type is exactly `string` or `boolean`; it is
non-null provided any declared default is non-null.  Fields of other
resolved types (e.g. integer, or `anyOf` unions) get no example. -/
theorem claim7_amended (name : String) (fi : RawField) (reqNames : List String)
    (h : toLowerStr name = "email" ∨ strContains (toLowerStr name) "password" = true ∨
         resolvedType fi = TypeVal.single "string" ∨
         resolvedType fi = TypeVal.single "boolean") :
    ((processField name fi reqNames).exampleVal).isSome = true ∧
    (fi.default ≠ some Value.vNull →
      (processField name fi reqNames).exampleVal ≠ some Value.vNull) := by
  have hex : (processField name fi reqNames).exampleVal = synthExample name fi := rfl
  rw [hex]
  unfold synthExample
  split_ifs with h1 h2 h3 h4
  · exact ⟨rfl, fun _ => by simp⟩
  · exact ⟨rfl, fun _ => by simp⟩
  · exact ⟨rfl, fun _ => by simp⟩
  · refine ⟨rfl, fun hd => ?_⟩
    cases hdf : fi.default with
    | none => simp
    | some d =>
        simp only [hdf, Option.getD_some, ne_eq, Option.some.injEq]
        intro hcontra
        exact hd (by rw [hdf, hcontra])
  · rcases h with hc | hc | hc | hc
    · exact absurd hc h1
    · exact absurd hc h2
    · exact absurd hc h3
    · exact absurd hc h4

/-- Witness for C7 (amended) at a concrete string-typed field. -/
theorem claim7_witness :
    ((processField "nick" rawString []).exampleVal).isSome = true ∧
    (rawString.default ≠ some Value.vNull →
      (processField "nick" rawString []).exampleVal ≠ some Value.vNull) :=
  claim7_amended "nick" rawString [] (Or.inr (Or.inr (Or.inl (by decide))))

/-! ### Claim C2: single-field pass expected-status policy -/

/-- Claim C2: in the single-field pass every emitted TestCase targets one
selected field with one of its variation values, overrides only that field
on top of the default body, and its expected status code is 400 exactly
when the value is the empty string and 200 for every other value; and
conversely every selected field/variation value yields such a case. -/
theorem claim2_single_field_status (default_body : Body)
    (fv : List (String × List Value)) (selected : List String)
    (cases : List TestCase)
    (h : singleFieldCases default_body fv selected = some cases) :
    (∀ c ∈ cases, ∃ f vars v, f ∈ selected ∧ lookupKey fv f = some vars ∧ v ∈ vars ∧
        c = mkSingleCase default_body f v ∧
        c.expected_status_code = some (if v = Value.vStr "" then (400 : Int) else 200)) ∧
    (∀ f ∈ selected, ∀ vars, lookupKey fv f = some vars →
        ∀ v ∈ vars, mkSingleCase default_body f v ∈ cases) := by
  induction selected generalizing cases with
  | nil =>
    simp only [singleFieldCases, Option.some.injEq] at h
    subst h
    exact ⟨by simp, by simp⟩
  | cons f fs ih =>
    simp only [singleFieldCases] at h
    cases hl : lookupKey fv f with
    | none => rw [hl] at h; cases h
    | some vars =>
      rw [hl] at h
      cases hrest : singleFieldCases default_body fv fs with
      | none => rw [hrest] at h; cases h
      | some rest =>
        rw [hrest] at h
        injection h with h
        subst h
        obtain ⟨ih1, ih2⟩ := ih rest hrest
        constructor
        · intro c hc
          rcases List.mem_append.mp hc with hmap | hr
          · obtain ⟨v, hv, hcv⟩ := List.mem_map.mp hmap
            exact ⟨f, vars, v, List.mem_cons_self f fs, hl, hv, hcv.symm,
              by rw [← hcv]; rfl⟩
          · obtain ⟨f', vars', v, hf', hl', hv, hc', hst⟩ := ih1 c hr
            exact ⟨f', vars', v, List.mem_cons_of_mem f hf', hl', hv, hc', hst⟩
        · intro g hg vars' hl' v hv
          rcases List.mem_cons.mp hg with heq | htl
          · subst heq
            rw [hl] at hl'
            injection hl' with hl'
            subst hl'
            exact List.mem_append.mpr (Or.inl (List.mem_map.mpr ⟨v, hv, rfl⟩))
          · exact List.mem_append.mpr (Or.inr (ih2 g htl vars' hl' v hv))

/-- Witness for C2 at a concrete run (an empty-string variation and a
non-empty one). -/
theorem claim2_witness :
    (∀ c ∈ casesNick, ∃ f vars v, f ∈ (["nick"] : List String) ∧
        lookupKey fvNick f = some vars ∧ v ∈ vars ∧
        c = mkSingleCase [] f v ∧
        c.expected_status_code = some (if v = Value.vStr "" then (400 : Int) else 200)) ∧
    (∀ f ∈ (["nick"] : List String), ∀ vars, lookupKey fvNick f = some vars →
        ∀ v ∈ vars, mkSingleCase [] f v ∈ casesNick) :=
  claim2_single_field_status [] fvNick ["nick"] casesNick rfl

/-! ### Claim C3: combination-pass counting -/

/-- `combos` enumerates `choose n r` subsets, like `itertools.combinations`. -/
theorem combos_length {α : Type} (l : List α) :
    ∀ r, (combos r l).length = Nat.choose l.length r := by
  induction l with
  | nil => intro r; cases r <;> simp [combos]
  | cons x xs ih =>
    intro r
    cases r with
    | zero => simp [combos]
    | succ r =>
      simp [combos, ih, Nat.choose_succ_succ]

/-- Members of a combination are members of the base list. -/
theorem combos_subset {α : Type} (l : List α) :
    ∀ r c, c ∈ combos r l → ∀ x ∈ c, x ∈ l := by
  induction l with
  | nil =>
    intro r c hc x hx
    cases r with
    | zero =>
      simp only [combos, List.mem_singleton] at hc
      subst hc
      cases hx
    | succ r => simp [combos] at hc
  | cons a t ih =>
    intro r c hc x hx
    cases r with
    | zero =>
      simp only [combos, List.mem_singleton] at hc
      subst hc
      cases hx
    | succ r =>
      simp only [combos, List.mem_append] at hc
      rcases hc with hmap | htail
      · obtain ⟨c', hc', rfl⟩ := List.mem_map.mp hmap
        rcases List.mem_cons.mp hx with heq | hx'
        · exact heq ▸ List.mem_cons_self a t
        · exact List.mem_cons_of_mem a (ih r c' hc' x hx')
      · exact List.mem_cons_of_mem a (ih (r + 1) c htail x hx)

/-- The visited subsets are exactly the 2-element then 3-element
combinations (also when fewer than 3, or fewer than 2, fields exist). -/
theorem comboSubsets_eq {α : Type} (l : List α) :
    comboSubsets l = combos 2 l ++ combos 3 l := by
  match l with
  | [] => rfl
  | [a] => rfl
  | [a, b] =>
    have hr : rangeFromTo 2 (min 4 ((2 : Nat) + 1)) = [2] := by decide
    show (rangeFromTo 2 (min 4 ([a, b].length + 1))).flatMap (fun r => combos r [a, b]) = _
    rw [show ([a, b] : List α).length = 2 from rfl, hr]
    simp [combos]
  | a :: b :: c :: rest =>
    have h4 : min 4 ((a :: b :: c :: rest).length + 1) = 4 := by
      simp only [List.length_cons]
      omega
    have hr : rangeFromTo 2 4 = [2, 3] := by decide
    show (rangeFromTo 2 (min 4 ((a :: b :: c :: rest).length + 1))).flatMap
        (fun r => combos r (a :: b :: c :: rest)) = _
    rw [h4, hr]
    simp

/-- Count of visited subsets. -/
theorem comboSubsets_length {α : Type} (l : List α) :
    (comboSubsets l).length = Nat.choose l.length 2 + Nat.choose l.length 3 := by
  rw [comboSubsets_eq]
  simp [combos_length]

theorem hasNonemptyVars_iff (fv : List (String × List Value)) (f : String) :
    hasNonemptyVars fv f = true ↔ ∃ vars, lookupKey fv f = some vars ∧ vars ≠ [] := by
  unfold hasNonemptyVars
  cases h : lookupKey fv f with
  | none => simp
  | some vars =>
    cases vars with
    | nil => simp
    | cons v vs => simp

/-- `random.choice` on a non-empty list returns an element. -/
theorem randomChoice_some {α : Type} (l : List α) (i : Nat) (h : l ≠ []) :
    ∃ v, randomChoice l i = some v ∧ v ∈ l := by
  have hlen : 0 < l.length := List.length_pos.mpr h
  have hmod : i % l.length < l.length := Nat.mod_lt i hlen
  refine ⟨l.get ⟨i % l.length, hmod⟩, ?_, List.get_mem l _ _⟩
  simp only [randomChoice]
  exact List.get?_eq_get hmod

/-- Overriding a combo whose fields all have non-empty variation lists
succeeds. -/
theorem overrideFields_some (pick : Nat → Nat) (fv : List (String × List Value))
    (combo : List String) (h : ∀ f ∈ combo, hasNonemptyVars fv f = true) :
    ∀ b ctr, ∃ b' ctr', overrideFields pick fv combo b ctr = some (b', ctr') := by
  induction combo with
  | nil => intro b ctr; exact ⟨b, ctr, rfl⟩
  | cons f fs ih =>
    intro b ctr
    obtain ⟨vars, hl, hne⟩ :=
      (hasNonemptyVars_iff fv f).mp (h f (List.mem_cons_self f fs))
    obtain ⟨v, hrc, _⟩ := randomChoice_some vars (pick ctr) hne
    obtain ⟨b', ctr', hb'⟩ :=
      ih (fun g hg => h g (List.mem_cons_of_mem f hg)) (setKey b f v) (ctr + 1)
    exact ⟨b', ctr', by simp only [overrideFields, hl, hrc, hb']⟩

/-- Each visited combo contributes exactly `n` cases (the code uses `n = 3`),
each with expected status 200. -/
theorem comboRep_some (pick : Nat → Nat) (default_body : Body)
    (fv : List (String × List Value)) (combo : List String)
    (h : ∀ f ∈ combo, hasNonemptyVars fv f = true) :
    ∀ n ctr, ∃ cs ctr', comboRep pick default_body fv combo n ctr = some (cs, ctr') ∧
      cs.length = n ∧ ∀ c ∈ cs, c.expected_status_code = some 200 := by
  intro n
  induction n with
  | zero => intro ctr; exact ⟨[], ctr, rfl, rfl, by simp⟩
  | succ n ihn =>
    intro ctr
    obtain ⟨b', ctr2, hb⟩ := overrideFields_some pick fv combo h default_body ctr
    obtain ⟨cs, ctr3, hrep, hlen, hall⟩ := ihn ctr2
    refine ⟨mkComboCase combo b' :: cs, ctr3, ?_, by simp [hlen], ?_⟩
    · simp only [comboRep, hb, hrep]
    · intro c hc
      rcases List.mem_cons.mp hc with rfl | hc'
      · rfl
      · exact hall c hc'

/-- The combination pass over a subset list whose combos all draw from
non-empty variation lists yields exactly `3 ×` (number of subsets) cases,
all with expected status 200. -/
theorem comboAll_some (pick : Nat → Nat) (default_body : Body)
    (fv : List (String × List Value)) (subsets : List (List String))
    (h : ∀ c ∈ subsets, ∀ f ∈ c, hasNonemptyVars fv f = true) :
    ∀ ctr, ∃ cs ctr', comboAll pick default_body fv subsets ctr = some (cs, ctr') ∧
      cs.length = 3 * subsets.length ∧
      ∀ c ∈ cs, c.expected_status_code = some 200 := by
  induction subsets with
  | nil => intro ctr; exact ⟨[], ctr, rfl, by simp, by simp⟩
  | cons s rest ih =>
    intro ctr
    obtain ⟨cs1, ctr2, h1, hlen1, hall1⟩ :=
      comboRep_some pick default_body fv s (h s (List.mem_cons_self s rest)) 3 ctr
    obtain ⟨cs2, ctr3, h2, hlen2, hall2⟩ :=
      ih (fun c hc f hf => h c (List.mem_cons_of_mem s hc) f hf) ctr2
    refine ⟨cs1 ++ cs2, ctr3, ?_, ?_, ?_⟩
    · simp only [comboAll, h1, h2]
    · simp only [List.length_append, hlen1, hlen2, List.length_cons]
      omega
    · intro c hc
      rcases List.mem_append.mp hc with hcc | hcc
      exacts [hall1 c hcc, hall2 c hcc]

/-- The single-field pass succeeds when every selected field has a
variation entry. -/
theorem singleFieldCases_some (default_body : Body)
    (fv : List (String × List Value)) (selected : List String)
    (h : ∀ f ∈ selected, hasNonemptyVars fv f = true) :
    ∃ cs, singleFieldCases default_body fv selected = some cs := by
  induction selected with
  | nil => exact ⟨[], rfl⟩
  | cons f fs ih =>
    obtain ⟨vars, hl, _⟩ :=
      (hasNonemptyVars_iff fv f).mp (h f (List.mem_cons_self f fs))
    obtain ⟨cs, hcs⟩ := ih (fun g hg => h g (List.mem_cons_of_mem f hg))
    refine ⟨List.map (mkSingleCase default_body f) vars ++ cs, ?_⟩
    simp only [singleFieldCases, hl, hcs]

/-- Claim C3: for `k` selected fields, each with a non-empty variation
list, the combination pass emits exactly `3 × (C(k,2) + C(k,3))` test cases
(0 when `k < 2`, since then both binomials vanish), each with expected
status code 200, and `generate_combination_test_cases` returns the
single-field cases followed by exactly those combination cases. -/
theorem claim3_combination_count (pick : Nat → Nat) (selected : List String)
    (fv : List (String × List Value)) (default_body : Body)
    (h : ∀ f ∈ selected, hasNonemptyVars fv f = true) :
    ∃ singles comboCases ctr,
      singleFieldCases default_body fv selected = some singles ∧
      comboAll pick default_body fv (comboSubsets selected) 0 = some (comboCases, ctr) ∧
      generate_combination_test_cases pick selected fv default_body =
        some (singles ++ comboCases) ∧
      comboCases.length =
        3 * (Nat.choose selected.length 2 + Nat.choose selected.length 3) ∧
      ∀ c ∈ comboCases, c.expected_status_code = some 200 := by
  obtain ⟨singles, hs⟩ := singleFieldCases_some default_body fv selected h
  have hsub : ∀ c ∈ comboSubsets selected, ∀ f ∈ c, hasNonemptyVars fv f = true := by
    intro c hc f hf
    have hcc : c ∈ combos 2 selected ++ combos 3 selected := comboSubsets_eq selected ▸ hc
    rcases List.mem_append.mp hcc with h2 | h3
    · exact h f (combos_subset selected 2 c h2 f hf)
    · exact h f (combos_subset selected 3 c h3 f hf)
  obtain ⟨cc, ctr, hca, hlen, hall⟩ :=
    comboAll_some pick default_body fv (comboSubsets selected) hsub 0
  refine ⟨singles, cc, ctr, hs, hca, ?_, by rw [hlen, comboSubsets_length], hall⟩
  simp only [generate_combination_test_cases, hs, hca]

/-- Witness for C3 at two selected fields: `3 × (C(2,2) + C(2,3)) = 3`. -/
theorem claim3_witness :
    ∃ singles comboCases ctr,
      singleFieldCases [] fvPair ["a", "b"] = some singles ∧
      comboAll pickA [] fvPair (comboSubsets ["a", "b"]) 0 = some (comboCases, ctr) ∧
      generate_combination_test_cases pickA ["a", "b"] fvPair [] =
        some (singles ++ comboCases) ∧
      comboCases.length =
        3 * (Nat.choose (["a", "b"] : List String).length 2 +
             Nat.choose (["a", "b"] : List String).length 3) ∧
      ∀ c ∈ comboCases, c.expected_status_code = some 200 :=
  claim3_combination_count pickA ["a", "b"] fvPair [] (by decide)

/-! ### Claims C4 and C9: body completion / advisory merge -/

/-- Characterization of the body-completion loop: a key resolves to the
declared data exactly when it is a selected field present in that data,
else to the accumulator (default body). -/
theorem applyOverrides_lookup (dd : Body) (fs : List String) (acc : Body) (k : String) :
    lookupKey (applyOverrides dd fs acc) k =
      if k ∈ fs ∧ (lookupKey dd k).isSome then lookupKey dd k else lookupKey acc k := by
  induction fs generalizing acc with
  | nil => simp [applyOverrides]
  | cons f fs ih =>
    simp only [applyOverrides]
    cases hd : lookupKey dd f with
    | none =>
      rw [ih acc]
      by_cases hk : k = f
      · subst hk
        simp [hd]
      · simp [List.mem_cons, hk]
    | some v =>
      rw [ih (setKey acc f v)]
      by_cases hk : k = f
      · subst hk
        by_cases hmem : k ∈ fs <;>
          simp [hd, lookupKey_setKey_self, hmem, List.mem_cons]
      · simp only [lookupKey_setKey_ne acc f k v hk, List.mem_cons, hk, false_or]

/-- Lookup characterization of the complete body of one normalized case. -/
theorem normBody_lookup (selected : List String) (db : Body) (d : Option Body)
    (k : String) :
    lookupKey (normBody selected db d) k =
      if k ∈ selected ∧ (dataLookup d k).isSome then dataLookup d k
      else lookupKey db k := by
  cases d with
  | none => simp [normBody, dataLookup]
  | some dd => simpa [normBody, dataLookup] using applyOverrides_lookup dd selected db k

/-- Successful generation decomposes into the automated pass, a successful
oracle, and the normalization map. -/
theorem generate_test_cases_cases (req : Requirements) (fk : Fakes) (pick : Nat → Nat)
    (oracle : Except String (List TestCase)) (selected : List String)
    (default_body : Body) (cases : List TestCase)
    (h : generate_test_cases req fk pick oracle selected default_body = some cases) :
    ∃ gpt automated, oracle = Except.ok gpt ∧
      generate_combination_test_cases pick selected (variationsMap req fk selected)
        default_body = some automated ∧
      cases = (automated ++ gpt).map (normalizeCase selected default_body) := by
  unfold generate_test_cases at h
  cases hc : generate_combination_test_cases pick selected (variationsMap req fk selected)
      default_body with
  | none => rw [hc] at h; cases h
  | some automated =>
    rw [hc] at h
    cases oracle with
    | error e => cases h
    | ok gpt =>
      injection h with h
      exact ⟨gpt, automated, rfl, rfl, h.symm⟩

/-- Claim C4: every test case emitted by `generate_test_cases` — single
field, combination, and merged advisory scenarios alike — carries a data
mapping that contains every key of the default body, and any key outside
the selected fields keeps its default value (only targeted/declared
selected fields are overridden); a partial body is never emitted. -/
theorem claim4_complete_bodies (req : Requirements) (fk : Fakes) (pick : Nat → Nat)
    (oracle : Except String (List TestCase)) (selected : List String)
    (default_body : Body) (cases : List TestCase)
    (h : generate_test_cases req fk pick oracle selected default_body = some cases) :
    ∀ c ∈ cases, ∃ b, c.data = some b ∧
      (∀ k, hasKey default_body k = true → hasKey b k = true) ∧
      (∀ k, k ∉ selected → lookupKey b k = lookupKey default_body k) := by
  obtain ⟨gpt, automated, -, -, hcs⟩ :=
    generate_test_cases_cases req fk pick oracle selected default_body cases h
  subst hcs
  intro c hc
  obtain ⟨raw, _, rfl⟩ := List.mem_map.mp hc
  refine ⟨normBody selected default_body raw.data, rfl, ?_, ?_⟩
  · intro k hk
    unfold hasKey at hk ⊢
    rw [normBody_lookup]
    split_ifs with hcond
    · exact hcond.2
    · exact hk
  · intro k hk
    rw [normBody_lookup]
    simp [hk]

/-- Witness for C4 at a concrete merged advisory scenario. -/
theorem claim4_witness :
    ∃ b, mergedOracleCase.data = some b ∧
      (∀ k, hasKey [("a", Value.vInt 1)] k = true → hasKey b k = true) ∧
      (∀ k, k ∉ ([] : List String) → lookupKey b k = lookupKey [("a", Value.vInt 1)] k) :=
  claim4_complete_bodies reqAgeOnly fkA pickA (Except.ok [rawOracleCase]) []
    [("a", Value.vInt 1)] [mergedOracleCase] rfl mergedOracleCase
    (List.mem_singleton.mpr rfl)

/-- Claim C9 (amended): every case produced by a run with a successful
oracle equals its source scenario normalized against the default body,
where a field overrides the default exactly when it is both declared in
the scenario's data and among the selected fields; declared fields outside
the selected set are discarded, and fields missing from the scenario's
data are filled from the default body. -/
theorem claim9_merge_characterization (req : Requirements) (fk : Fakes)
    (pick : Nat → Nat) (gpt : List TestCase) (selected : List String)
    (default_body : Body) (cases : List TestCase) (c : TestCase)
    (h : generate_test_cases req fk pick (Except.ok gpt) selected default_body = some cases)
    (hc : c ∈ cases) :
    ∃ raw b, c = normalizeCase selected default_body raw ∧ c.data = some b ∧
      ∀ k, lookupKey b k =
        if k ∈ selected ∧ (dataLookup raw.data k).isSome then dataLookup raw.data k
        else lookupKey default_body k := by
  obtain ⟨gpt', automated, -, -, hcs⟩ :=
    generate_test_cases_cases req fk pick (Except.ok gpt) selected default_body cases h
  subst hcs
  obtain ⟨raw, _, rfl⟩ := List.mem_map.mp hc
  exact ⟨raw, normBody selected default_body raw.data, rfl, rfl,
    fun k => normBody_lookup selected default_body raw.data k⟩

/-- Claim C9 counterexample: the scenario declares `b`, but because `b` is
not among the selected fields the merged case's data omits it entirely —
the reconciliation is NOT "every declared field overrides, regardless of
which fields were selected". -/
theorem claim9_counterexample :
    generate_test_cases reqAOnly fkA pickA (Except.ok [rawDeclaresB]) ["a"]
      [("a", Value.vInt 1)] = some [mergedDeclaresB] ∧
    dataLookup rawDeclaresB.data "b" = some (Value.vInt 2) ∧
    mergedDeclaresB.data = some [("a", Value.vInt 5)] ∧
    lookupKey [("a", Value.vInt 5)] "b" = none :=
  ⟨rfl, rfl, rfl, rfl⟩

/-- Witness for C9 (amended) at the same concrete run. -/
theorem claim9_witness :
    ∃ raw b, mergedDeclaresB = normalizeCase ["a"] [("a", Value.vInt 1)] raw ∧
      mergedDeclaresB.data = some b ∧
      ∀ k, lookupKey b k =
        if k ∈ (["a"] : List String) ∧ (dataLookup raw.data k).isSome
        then dataLookup raw.data k
        else lookupKey [("a", Value.vInt 1)] k :=
  claim9_merge_characterization reqAOnly fkA pickA [rawDeclaresB] ["a"]
    [("a", Value.vInt 1)] [mergedDeclaresB] mergedDeclaresB rfl
    (List.mem_singleton.mpr rfl)

/-! ### Claim C6: empty variation lists and the combination pass -/

/-- A singleton combination exists for every member. -/
theorem mem_combos_one {α : Type} {x : α} : ∀ {l : List α}, x ∈ l → [x] ∈ combos 1 l := by
  intro l
  induction l with
  | nil => intro h; cases h
  | cons a t ih =>
    intro h
    rcases List.mem_cons.mp h with heq | ht
    · subst heq
      simp [combos]
    · simp only [combos]
      exact List.mem_append.mpr (Or.inr (ih ht))

/-- With at least two fields, every field occurs in some 2-element
combination. -/
theorem exists_pair_mem {α : Type} (l : List α) (x : α) (hx : x ∈ l)
    (hlen : 2 ≤ l.length) : ∃ c ∈ combos 2 l, x ∈ c := by
  cases l with
  | nil => cases hx
  | cons a t =>
    rcases List.mem_cons.mp hx with heq | ht
    · subst heq
      cases t with
      | nil => simp at hlen
      | cons b t' =>
        refine ⟨[x, b], ?_, by simp⟩
        show [x, b] ∈ (combos 1 (b :: t')).map (fun c => x :: c) ++ combos 2 (b :: t')
        exact List.mem_append.mpr
          (Or.inl (List.mem_map.mpr ⟨[b], mem_combos_one (List.mem_cons_self b t'), rfl⟩))
    · refine ⟨[a, x], ?_, by simp⟩
      show [a, x] ∈ (combos 1 t).map (fun c => a :: c) ++ combos 2 t
      exact List.mem_append.mpr (Or.inl (List.mem_map.mpr ⟨[x], mem_combos_one ht, rfl⟩))

/-- A combo containing a field whose variation list is empty cannot be
overridden: the `random.choice` on the empty list fails. -/
theorem overrideFields_none (pick : Nat → Nat) (fv : List (String × List Value))
    (combo : List String) (f : String) (hf : f ∈ combo)
    (hempty : lookupKey fv f = some []) :
    ∀ b ctr, overrideFields pick fv combo b ctr = none := by
  induction combo with
  | nil => cases hf
  | cons g gs ih =>
    intro b ctr
    rcases List.mem_cons.mp hf with heq | ht
    · subst heq
      simp [overrideFields, hempty, randomChoice]
    · simp only [overrideFields]
      cases hg : lookupKey fv g with
      | none => rfl
      | some vars =>
        show (match randomChoice vars (pick ctr) with
          | none => none
          | some v => overrideFields pick fv gs (setKey b g v) (ctr + 1)) = none
        cases hrc : randomChoice vars (pick ctr) with
        | none => rfl
        | some v => exact ih ht (setKey b g v) (ctr + 1)

/-- A failing override makes every repetition of the combo fail. -/
theorem comboRep_none (pick : Nat → Nat) (default_body : Body)
    (fv : List (String × List Value)) (combo : List String) (n ctr : Nat)
    (hfail : overrideFields pick fv combo default_body ctr = none) :
    comboRep pick default_body fv combo (n + 1) ctr = none := by
  simp [comboRep, hfail]

/-- A failing combo anywhere in the subset list makes the whole combination
pass fail (the exception propagates). -/
theorem comboAll_none (pick : Nat → Nat) (default_body : Body)
    (fv : List (String × List Value)) (subsets : List (List String))
    (c : List String) (hc : c ∈ subsets)
    (hfail : ∀ b ctr, overrideFields pick fv c b ctr = none) :
    ∀ ctr, comboAll pick default_body fv subsets ctr = none := by
  induction subsets with
  | nil => cases hc
  | cons s rest ih =>
    intro ctr
    rcases List.mem_cons.mp hc with heq | ht
    · subst heq
      have h3 : comboRep pick default_body fv c 3 ctr = none :=
        comboRep_none pick default_body fv c 2 ctr (hfail default_body ctr)
      simp [comboAll, h3]
    · simp only [comboAll]
      cases hrep : comboRep pick default_body fv s 3 ctr with
      | none => rfl
      | some pr =>
        obtain ⟨cs1, ctr2⟩ := pr
        show (match comboAll pick default_body fv rest ctr2 with
          | none => none
          | some (rest2, ctr3) => some (cs1 ++ rest2, ctr3)) = none
        rw [ih ht ctr2]

/-- The variation table maps every selected field to its generated list. -/
theorem lookupKey_variationsMap (req : Requirements) (fk : Fakes)
    (selected : List String) (f : String) (hf : f ∈ selected) :
    lookupKey (variationsMap req fk selected) f =
      some (generate_field_variations fk f (fieldInfoFor req f)) := by
  induction selected with
  | nil => cases hf
  | cons g gs ih =>
    by_cases hgf : g = f
    · subst hgf
      simp [variationsMap, lookupKey]
    · rcases List.mem_cons.mp hf with heq | ht
      · exact absurd heq.symm hgf
      · simp only [variationsMap, List.map_cons, lookupKey, if_neg hgf]
        exact ih ht

/-- Claim C6 (amended): a selected field with an empty variation list
contributes no single-field cases, but it is NOT excluded from the
combination pass: whenever at least two fields are selected it occurs in
some 2-field combination, the random choice from its empty list fails, and
`generate_test_cases` returns `None` — test generation does not succeed
for the remaining fields. -/
theorem claim6_empty_variations_abort (req : Requirements) (fk : Fakes)
    (pick : Nat → Nat) (oracle : Except String (List TestCase))
    (selected : List String) (default_body : Body) (f : String)
    (hlen : 2 ≤ selected.length) (hf : f ∈ selected)
    (hempty : generate_field_variations fk f (fieldInfoFor req f) = []) :
    generate_test_cases req fk pick oracle selected default_body = none := by
  have hlk : lookupKey (variationsMap req fk selected) f = some [] := by
    rw [lookupKey_variationsMap req fk selected f hf, hempty]
  obtain ⟨c, hc, hfc⟩ := exists_pair_mem selected f hf hlen
  have hcsub : c ∈ comboSubsets selected := by
    rw [comboSubsets_eq]
    exact List.mem_append.mpr (Or.inl hc)
  have hfail : ∀ b ctr,
      overrideFields pick (variationsMap req fk selected) c b ctr = none :=
    overrideFields_none pick _ c f hfc hlk
  have hcomb : generate_combination_test_cases pick selected
      (variationsMap req fk selected) default_body = none := by
    unfold generate_combination_test_cases
    cases hs : singleFieldCases default_body (variationsMap req fk selected) selected with
    | none => rfl
    | some singles =>
      rw [comboAll_none pick default_body _ (comboSubsets selected) c hcsub hfail 0]
  unfold generate_test_cases
  rw [hcomb]

/-- Claim C6 counterexample: `address` yields an empty variation list while
`age` yields a non-empty one, yet selecting both makes the whole generation
return `None` instead of succeeding for the remaining field. -/
theorem claim6_counterexample :
    generate_field_variations fkA "address" (fieldInfoFor reqAddrAge "address") = [] ∧
    generate_field_variations fkA "age" (fieldInfoFor reqAddrAge "age") ≠ [] ∧
    generate_test_cases reqAddrAge fkA pickA (Except.ok []) ["address", "age"]
      (get_default_request_body reqAddrAge) = none :=
  ⟨rfl, by decide, rfl⟩

/-- Witness for C6 (amended) at a concrete two-field run. -/
theorem claim6_witness :
    generate_test_cases reqAddrAge fkA pickA (Except.ok [rawOracleCase])
      ["address", "age"] [] = none :=
  claim6_empty_variations_abort reqAddrAge fkA pickA (Except.ok [rawOracleCase])
    ["address", "age"] [] "address" (by decide) (by decide) (by decide)

/-! ### Claim C8: executor failure isolation -/

theorem map_getElem? {α β : Type} (f : α → β) (l : List α) (j : Nat) :
    (l.map f).get? j = (l.get? j).map f := by
  induction l generalizing j with
  | nil => cases j <;> rfl
  | cons x xs ih =>
    cases j with
    | zero => rfl
    | succ j => exact ih j

/-- Claim C8: during execution, a transport failure on one test case marks
only that case (`actual_status_code = "Error"`, `passed = false`, error
message retained in `test_result.error` and `actual_response`), while the
result list keeps every case of the suite, each being the independent
execution of its own case. -/
theorem claim8_failure_isolation (transport : HttpRequest → Except String HttpResponse)
    (endpoint : String) (cases : List TestCase) (i : Nat) (ci : TestCase) (e : String)
    (hi : cases.get? i = some ci)
    (herr : caseAttempt transport endpoint ci = Except.error e) :
    (execute_test_cases transport endpoint cases).length = cases.length ∧
    (∀ j, (execute_test_cases transport endpoint cases).get? j =
      (cases.get? j).map (execute_case transport endpoint)) ∧
    (execute_test_cases transport endpoint cases).get? i =
      some (execute_case transport endpoint ci) ∧
    (execute_case transport endpoint ci).actual_status_code = some StatusVal.errText ∧
    (execute_case transport endpoint ci).test_result =
      some { passed := some false, status_code_match := none, notes := none,
             error := some e } ∧
    (execute_case transport endpoint ci).actual_response = some (Value.vStr e) := by
  have hcase : execute_case transport endpoint ci =
      { ci with actual_status_code := some StatusVal.errText,
                actual_response := some (Value.vStr e),
                test_result := some { passed := some false, status_code_match := none,
                                      notes := none, error := some e } } := by
    unfold execute_case
    rw [herr]
  refine ⟨List.length_map cases (execute_case transport endpoint),
    fun j => map_getElem? (execute_case transport endpoint) cases j, ?_, ?_, ?_, ?_⟩
  · rw [show execute_test_cases transport endpoint cases =
        cases.map (execute_case transport endpoint) from rfl,
      map_getElem? (execute_case transport endpoint) cases i, hi]
    rfl
  · rw [hcase]
  · rw [hcase]
  · rw [hcase]

/-- Witness for C8 at a concrete one-case suite with a failing transport. -/
theorem claim8_witness :
    (execute_test_cases transportFail "e" [caseForExec]).length =
      ([caseForExec] : List TestCase).length ∧
    (∀ j, (execute_test_cases transportFail "e" [caseForExec]).get? j =
      (([caseForExec] : List TestCase).get? j).map (execute_case transportFail "e")) ∧
    (execute_test_cases transportFail "e" [caseForExec]).get? 0 =
      some (execute_case transportFail "e" caseForExec) ∧
    (execute_case transportFail "e" caseForExec).actual_status_code =
      some StatusVal.errText ∧
    (execute_case transportFail "e" caseForExec).test_result =
      some { passed := some false, status_code_match := none, notes := none,
             error := some "connection refused" } ∧
    (execute_case transportFail "e" caseForExec).actual_response =
      some (Value.vStr "connection refused") :=
  claim8_failure_isolation transportFail "e" [caseForExec] 0 caseForExec
    "connection refused" rfl rfl

/-! ### Claim C10: report counting -/

theorem mapExcept_ok_length {α β : Type} (f : α → Except String β) (l : List α)
    (l' : List β) (h : mapExcept f l = Except.ok l') : l'.length = l.length := by
  induction l generalizing l' with
  | nil =>
    simp only [mapExcept, Except.ok.injEq] at h
    subst h
    rfl
  | cons x xs ih =>
    simp only [mapExcept] at h
    cases hf : f x with
    | error e => rw [hf] at h; cases h
    | ok y =>
      rw [hf] at h
      cases hm : mapExcept f xs with
      | error e => rw [hm] at h; cases h
      | ok ys =>
        rw [hm] at h
        injection h with h
        subst h
        simp [ih ys hm]

theorem mapExcept_ok_mem {α β : Type} (f : α → Except String β) (l : List α)
    (l' : List β) (h : mapExcept f l = Except.ok l') :
    ∀ x ∈ l, ∃ y ∈ l', f x = Except.ok y := by
  induction l generalizing l' with
  | nil => intro x hx; cases hx
  | cons a xs ih =>
    simp only [mapExcept] at h
    cases hf : f a with
    | error e => rw [hf] at h; cases h
    | ok y =>
      rw [hf] at h
      cases hm : mapExcept f xs with
      | error e => rw [hm] at h; cases h
      | ok ys =>
        rw [hm] at h
        injection h with h
        subst h
        intro x hx
        rcases List.mem_cons.mp hx with heq | ht
        · subst heq
          exact ⟨y, List.mem_cons_self y ys, hf⟩
        · obtain ⟨z, hz, hfz⟩ := ih ys hm x ht
          exact ⟨z, List.mem_cons_of_mem y hz, hfz⟩

/-- `casePassed` holds exactly when the `test_result` dict exists and its
`passed` entry is literally `true`. -/
theorem casePassed_iff (c : TestCase) :
    casePassed c = true ↔ ∃ r, c.test_result = some r ∧ r.passed = some true := by
  unfold casePassed
  cases ht : c.test_result with
  | none => simp
  | some r =>
    cases hp : r.passed with
    | none => simp [hp]
    | some b => cases b <;> simp [hp]

/-- Claim C10: the report counts a case as passed exactly when its
`test_result` mapping exists and its `passed` entry is true; a case with a
missing `test_result` or a missing `passed` entry is counted as failed and
listed in `failed_tests_summary`; `total_tests` always equals
`passed_tests + failed_tests`. -/
theorem claim10_report_counting (results : List TestCase) (rpt : Report)
    (h : generate_test_report results = Except.ok rpt) :
    rpt.total_tests = results.length ∧
    rpt.passed_tests = (results.filter casePassed).length ∧
    (∀ c ∈ results, casePassed c = true ↔
      ∃ r, c.test_result = some r ∧ r.passed = some true) ∧
    rpt.failed_tests = rpt.total_tests - rpt.passed_tests ∧
    rpt.total_tests = rpt.passed_tests + rpt.failed_tests ∧
    rpt.failed_tests_summary.length =
      (results.filter (fun c => ! casePassed c)).length ∧
    (∀ c ∈ results, casePassed c = false →
      ∃ entry ∈ rpt.failed_tests_summary, failEntry c = Except.ok entry) := by
  unfold generate_test_report at h
  cases hm : mapExcept failEntry (results.filter (fun c => ! casePassed c)) with
  | error e => rw [hm] at h; cases h
  | ok entries =>
    rw [hm] at h
    injection h with h
    subst h
    have hle : (results.filter casePassed).length ≤ results.length :=
      List.length_filter_le _ _
    refine ⟨rfl, rfl, fun c _ => casePassed_iff c, rfl, ?_, ?_, ?_⟩
    · show results.length =
        (results.filter casePassed).length +
          (results.length - (results.filter casePassed).length)
      omega
    · exact mapExcept_ok_length failEntry _ entries hm
    · intro c hc hfail
      have hcf : c ∈ results.filter (fun c => ! casePassed c) :=
        List.mem_filter.mpr ⟨hc, by rw [hfail]; rfl⟩
      exact mapExcept_ok_mem failEntry _ entries hm c hcf

/-- Witness for C10 at a concrete result list containing a case with no
`test_result` mapping. -/
theorem claim10_witness :
    noResultReport.total_tests = ([noResultCase] : List TestCase).length ∧
    noResultReport.passed_tests =
      (([noResultCase] : List TestCase).filter casePassed).length ∧
    (∀ c ∈ ([noResultCase] : List TestCase), casePassed c = true ↔
      ∃ r, c.test_result = some r ∧ r.passed = some true) ∧
    noResultReport.failed_tests =
      noResultReport.total_tests - noResultReport.passed_tests ∧
    noResultReport.total_tests =
      noResultReport.passed_tests + noResultReport.failed_tests ∧
    noResultReport.failed_tests_summary.length =
      (([noResultCase] : List TestCase).filter (fun c => ! casePassed c)).length ∧
    (∀ c ∈ ([noResultCase] : List TestCase), casePassed c = false →
      ∃ entry ∈ noResultReport.failed_tests_summary, failEntry c = Except.ok entry) :=
  claim10_report_counting [noResultCase] noResultReport rfl

end APITester
